import Mathlib

set_option autoImplicit false

/-!
Verification development for the honeypot dashboard backend (src/api.py).

The background refresh task `fetch_and_analyze_data`, the analysis cache, the
read endpoints and the helpers they use are embedded as executable Lean
functions.  Python strings are modelled as `List Char`; Python dicts holding
JSON data are modelled as ordered association lists; `json.loads` is modelled
by a recursive-descent parser implementing the grammar Python's decoder
accepts in strict mode: null, booleans, numbers (integers, fractions,
exponents, and the `Infinity`, `-Infinity`, `NaN` extensions), strings with
the eight one-character escapes and `\uXXXX` escapes including surrogate
pairs, arrays and objects.  The Elasticsearch service and the Gemini service
are external collaborators; their replies enter the model as inputs of a
refresh cycle.
-/

/-- JSON values, the payloads produced by `json.loads` in src/api.py line 109.
Objects are ordered association lists, mirroring Python dicts.  Integer
numerals carry their integer value; non-integer numerals (fractions,
exponents) and the `Infinity`/`NaN` constants are carried as their source
token by `flt`, since no property of this program observes a floating-point
value and IEEE arithmetic has no place in this embedding - only the
parse-success boundary and the stored fields matter. -/
inductive Json where
  | null
  | bool (b : Bool)
  | num (n : Int)
  | flt (tok : List Char)
  | str (s : List Char)
  | arr (elems : List Json)
  | obj (fields : List (List Char × Json))

instance : Inhabited Json := ⟨Json.null⟩

/-- Python dict item assignment `d[k] = v`: overwrite in place when the key is
present (keeping its position), append otherwise.  Used for the
`ai_result["last_updated"] = ...` statement at src/api.py line 110. -/
def setKey : List (List Char × Json) → List Char → Json → List (List Char × Json)
  | [], k, v => [(k, v)]
  | (k', v') :: rest, k, v =>
    if k' = k then (k, v) :: rest else (k', v') :: setKey rest k v

/-- Python dict lookup `d.get(k)` on a JSON object. -/
def lookupKey : List (List Char × Json) → List Char → Option Json
  | [], _ => none
  | (k', v) :: rest, k => if k' = k then some v else lookupKey rest k

/-- Python dict construction from a member list, assigning members left to
right, so a duplicated key keeps its first position and its last value -
exactly what `json.loads` does while decoding an object. -/
def mkObj (members : List (List Char × Json)) : List (List Char × Json) :=
  members.foldl (fun acc kv => setKey acc kv.1 kv.2) []

/-- The four whitespace characters the JSON grammar allows between tokens. -/
def isJsonWs (c : Char) : Bool :=
  c == ' ' || c == '\n' || c == '\t' || c == '\r'

/-- Drop JSON whitespace from the front of the input. -/
def skipWs : List Char → List Char
  | c :: cs => if isJsonWs c then skipWs cs else c :: cs
  | [] => []

/-- Decoder for a single-character JSON string escape; the `\uXXXX` escape
is handled separately in `parseStringBody`. -/
def unescapeChar (c : Char) : Option Char :=
  if c = '"' then some '"'
  else if c = '\\' then some '\\'
  else if c = '/' then some '/'
  else if c = 'n' then some '\n'
  else if c = 't' then some '\t'
  else if c = 'r' then some '\r'
  else if c = 'b' then some (Char.ofNat 8)
  else if c = 'f' then some (Char.ofNat 12)
  else none

/-- Value of one hexadecimal digit. -/
def hexVal (c : Char) : Option Nat :=
  if '0' ≤ c ∧ c ≤ '9' then some (c.toNat - 48)
  else if 'a' ≤ c ∧ c ≤ 'f' then some (c.toNat - 87)
  else if 'A' ≤ c ∧ c ≤ 'F' then some (c.toNat - 55)
  else none

/-- Value of a four-hex-digit escape body. -/
def hex4 (a b c d : Char) : Option Nat :=
  match hexVal a, hexVal b, hexVal c, hexVal d with
  | some x, some y, some z, some w => some (4096 * x + 256 * y + 16 * z + w)
  | _, _, _, _ => none

/-- Stand-in for an unpaired surrogate code unit: Python's decoder keeps the
lone surrogate in the result string, a value a Lean `Char` cannot hold, so
the model stores U+FFFD in its place.  This choice never moves the
parse-success boundary, only the character stored. -/
def loneSurrogateChar : Char := Char.ofNat 0xFFFD

/-- Parse the body of a JSON string literal (the opening quote already
consumed) up to and including the closing quote, following Python's strict
decoder: the eight one-character escapes, `\uXXXX` escapes - a high
surrogate directly followed by a `\uXXXX` low surrogate combines into one
scalar, otherwise the surrogate stands alone - and rejection of raw control
characters and of malformed escapes.  The fuel only serves the termination
checker: every step consumes at least one character, so starting fuel
`length + 1` never runs out. -/
def parseStringBody : Nat → List Char → Option (List Char × List Char)
  | 0, _ => none
  | _ + 1, [] => none
  | fuel + 1, c :: cs =>
    if c = '"' then some ([], cs)
    else if c = '\\' then
      match cs with
      | 'u' :: h1 :: h2 :: h3 :: h4 :: rest =>
        (match hex4 h1 h2 h3 h4 with
         | none => none
         | some cu =>
           if 0xD800 ≤ cu ∧ cu ≤ 0xDBFF then
             match rest with
             | '\\' :: 'u' :: g1 :: g2 :: g3 :: g4 :: rest2 =>
               (match hex4 g1 g2 g3 g4 with
                | none => none
                | some cu2 =>
                  if 0xDC00 ≤ cu2 ∧ cu2 ≤ 0xDFFF then
                    match parseStringBody fuel rest2 with
                    | none => none
                    | some (out, r) =>
                      some (Char.ofNat
                        (0x10000 + (cu - 0xD800) * 0x400 + (cu2 - 0xDC00)) :: out, r)
                  else
                    match parseStringBody fuel rest with
                    | none => none
                    | some (out, r) => some (loneSurrogateChar :: out, r))
             | _ =>
               match parseStringBody fuel rest with
               | none => none
               | some (out, r) => some (loneSurrogateChar :: out, r)
           else if 0xDC00 ≤ cu ∧ cu ≤ 0xDFFF then
             match parseStringBody fuel rest with
             | none => none
             | some (out, r) => some (loneSurrogateChar :: out, r)
           else
             match parseStringBody fuel rest with
             | none => none
             | some (out, r) => some (Char.ofNat cu :: out, r))
      | 'u' :: _ => none
      | e :: cs' =>
        match unescapeChar e with
        | none => none
        | some u =>
          match parseStringBody fuel cs' with
          | none => none
          | some (out, rest) => some (u :: out, rest)
      | [] => none
    else if c.toNat < 32 then none
    else
      match parseStringBody fuel cs with
      | none => none
      | some (out, rest) => some (c :: out, rest)

/-- Accumulate decimal digits into a natural number. -/
def digitsToNat : List Char → Nat → Nat
  | [], acc => acc
  | c :: cs, acc => digitsToNat cs (acc * 10 + (c.toNat - 48))

/-- One or more decimal digits, taken maximally. -/
def parseDigits : List Char → Option (List Char × List Char)
  | c :: cs =>
    if c.isDigit then
      some (c :: cs.takeWhile (fun d => d.isDigit), cs.dropWhile (fun d => d.isDigit))
    else none
  | [] => none

/-- Integer part of a JSON numeral: a single `0`, or a nonzero digit
followed by any digits - a leading zero stops the token after the `0`, so
the digits after it are left over and make the surrounding parse fail,
exactly as Python's number regex does on `007`. -/
def parseIntDigits : List Char → Option (List Char × List Char)
  | '0' :: cs => some (['0'], cs)
  | c :: cs =>
    if c.isDigit then
      some (c :: cs.takeWhile (fun d => d.isDigit), cs.dropWhile (fun d => d.isDigit))
    else none
  | [] => none

/-- Optional fraction part `.digits`; consumed only when complete, as the
regex backtracks otherwise. -/
def parseFrac : List Char → List Char × List Char
  | '.' :: cs =>
    (match parseDigits cs with
     | some (ds, rest) => ('.' :: ds, rest)
     | none => ([], '.' :: cs))
  | s => ([], s)

/-- Optional exponent part `[eE][+-]?digits`; consumed only when complete. -/
def parseExp : List Char → List Char × List Char
  | e :: cs =>
    if e = 'e' ∨ e = 'E' then
      match cs with
      | sgn :: cs2 =>
        if sgn = '+' ∨ sgn = '-' then
          match parseDigits cs2 with
          | some (ds, rest) => (e :: sgn :: ds, rest)
          | none => ([], e :: cs)
        else
          match parseDigits cs with
          | some (ds, rest) => (e :: ds, rest)
          | none => ([], e :: cs)
      | [] => ([], [e])
    else ([], e :: cs)
  | [] => ([], [])

/-- Parse a JSON numeral as Python's decoder does: the maximal match of
`-?(0|[1-9][0-9]*)(.[0-9]+)?([eE][+-]?[0-9]+)?`, an integer value when
neither fraction nor exponent is present and a `flt` token otherwise, plus
the `Infinity`, `-Infinity` and `NaN` constants the decoder also accepts. -/
def parseNum (s : List Char) : Option (Json × List Char) :=
  match s with
  | 'I' :: 'n' :: 'f' :: 'i' :: 'n' :: 'i' :: 't' :: 'y' :: rest =>
    some (Json.flt ("Infinity".data), rest)
  | 'N' :: 'a' :: 'N' :: rest => some (Json.flt ("NaN".data), rest)
  | '-' :: 'I' :: 'n' :: 'f' :: 'i' :: 'n' :: 'i' :: 't' :: 'y' :: rest =>
    some (Json.flt ("-Infinity".data), rest)
  | _ =>
    let p := match s with
      | '-' :: rest => (true, rest)
      | _ => (false, s)
    match parseIntDigits p.2 with
    | none => none
    | some (ids, r1) =>
      match parseFrac r1 with
      | (fr, r2) =>
        match parseExp r2 with
        | (ex, r3) =>
          if fr = [] ∧ ex = [] then
            some (Json.num
              (if p.1 then -Int.ofNat (digitsToNat ids 0)
               else Int.ofNat (digitsToNat ids 0)), r1)
          else
            some (Json.flt ((if p.1 then ['-'] else []) ++ ids ++ fr ++ ex), r3)

/-- Parser modes: a single value, the element list of an array after `[`, or
the member list of an object after the opening brace. -/
inductive PMode where
  | val
  | elems
  | members

/-- Parser results, one constructor per mode. -/
inductive PRes where
  | v (j : Json)
  | vs (l : List Json)
  | ms (l : List (List Char × Json))

/-- Recursive-descent JSON parser with explicit fuel, covering the grammar
fragment described at `Json`.  Modelled on Python's `json.loads` used at
src/api.py line 109. -/
def parseCore : Nat → PMode → List Char → Option (PRes × List Char)
  | 0, _, _ => none
  | fuel + 1, PMode.val, s =>
    match skipWs s with
    | '"' :: rest =>
      match parseStringBody (rest.length + 1) rest with
      | some (cs, r) => some (PRes.v (Json.str cs), r)
      | none => none
    | '\x7b' :: rest =>
      match skipWs rest with
      | '\x7d' :: r => some (PRes.v (Json.obj []), r)
      | _ =>
        match parseCore fuel PMode.members rest with
        | some (PRes.ms fs, r) => some (PRes.v (Json.obj (mkObj fs)), r)
        | _ => none
    | '[' :: rest =>
      match skipWs rest with
      | ']' :: r => some (PRes.v (Json.arr []), r)
      | _ =>
        match parseCore fuel PMode.elems rest with
        | some (PRes.vs l, r) => some (PRes.v (Json.arr l), r)
        | _ => none
    | 'n' :: 'u' :: 'l' :: 'l' :: rest => some (PRes.v Json.null, rest)
    | 't' :: 'r' :: 'u' :: 'e' :: rest => some (PRes.v (Json.bool true), rest)
    | 'f' :: 'a' :: 'l' :: 's' :: 'e' :: rest => some (PRes.v (Json.bool false), rest)
    | s' => parseNum s' |>.map (fun jr => (PRes.v jr.1, jr.2))
  | fuel + 1, PMode.elems, s =>
    match parseCore fuel PMode.val s with
    | some (PRes.v j, rest) =>
      (match skipWs rest with
       | ',' :: r =>
         match parseCore fuel PMode.elems r with
         | some (PRes.vs l, r') => some (PRes.vs (j :: l), r')
         | _ => none
       | ']' :: r => some (PRes.vs [j], r)
       | _ => none)
    | _ => none
  | fuel + 1, PMode.members, s =>
    match skipWs s with
    | '"' :: rest =>
      match parseStringBody (rest.length + 1) rest with
      | some (k, r1) =>
        (match skipWs r1 with
         | ':' :: r2 =>
           match parseCore fuel PMode.val r2 with
           | some (PRes.v j, r3) =>
             (match skipWs r3 with
              | ',' :: r4 =>
                match parseCore fuel PMode.members r4 with
                | some (PRes.ms fs, r5) => some (PRes.ms ((k, j) :: fs), r5)
                | _ => none
              | '\x7d' :: r4 => some (PRes.ms [(k, j)], r4)
              | _ => none)
           | _ => none
         | _ => none)
      | none => none
    | _ => none

/-- Parse one JSON value, returning it with the unconsumed remainder. -/
def parseVal (fuel : Nat) (s : List Char) : Option (Json × List Char) :=
  match parseCore fuel PMode.val s with
  | some (PRes.v j, r) => some (j, r)
  | _ => none

/-- Embedding of `json.loads` (src/api.py line 109): parse one value and
require that nothing but whitespace follows; `none` models the
`json.JSONDecodeError` the surrounding `except` block catches. -/
def jsonLoads (s : List Char) : Option Json :=
  match parseVal (2 * s.length + 1) s with
  | some (j, rest) => if skipWs rest = [] then some j else none
  | none => none

/-- The ASCII whitespace characters Python's `str.strip()` removes. -/
def isPyWs (c : Char) : Bool :=
  c == ' ' || c == '\t' || c == '\n' || c == '\r' || c == '\x0b' || c == '\x0c'

/-- Python `str.strip()`: whitespace removed from both ends. -/
def pyStrip (s : List Char) : List Char :=
  ((s.dropWhile isPyWs).reverse.dropWhile isPyWs).reverse

/-- Fueled worker for Python `str.replace`: replace every non-overlapping
occurrence of `pat`, scanning left to right. -/
def replaceAll (pat repl : List Char) : Nat → List Char → List Char
  | _, [] => []
  | 0, s => s
  | fuel + 1, c :: cs =>
    if pat ≠ [] ∧ pat.isPrefixOf (c :: cs) then
      repl ++ replaceAll pat repl fuel (List.drop pat.length (c :: cs))
    else
      c :: replaceAll pat repl fuel cs

/-- Python `s.replace(pat, repl)` for a non-empty pattern. -/
def pyReplace (s pat repl : List Char) : List Char :=
  replaceAll pat repl s.length s

/-- The code-fence opener the Gemini reply may carry. -/
def fenceJson : List Char := "```json".data

/-- A bare code fence. -/
def fence3 : List Char := "```".data

/-- Embedding of src/api.py line 107:
`response.text.strip().replace("```json", "").replace("```", "")`. -/
def cleanResponse (text : List Char) : List Char :=
  pyReplace (pyReplace (pyStrip text) fenceJson []) fence3 []

/-- Availability of the two external clients configured at process start
(src/api.py lines 31 to 46): `es` and `model` are `None` when configuration
failed, and line 51 skips every cycle in that case. -/
structure Config where
  esAvailable : Bool
  modelAvailable : Bool

/-- The named aggregations the 15-minute query extracts from the
Elasticsearch response (src/api.py lines 61 to 67): a cardinality value and
four terms-bucket lists of (key, count) pairs. -/
structure Aggs where
  unique_ips : Nat
  top_countries : List (List Char × Nat)
  top_honeypots : List (List Char × Nat)
  top_ports : List (Nat × Nat)
  top_passwords : List (List Char × Nat)

/-- Outcome of the `es.search` call at src/api.py line 69: either an
exception (caught by the surrounding `except`) or a response carrying the
aggregations and the total hit count. -/
inductive QueryOutcome where
  | err
  | ok (aggs : Aggs) (total_events : Nat)

/-- Everything one refresh cycle receives from outside: the Elasticsearch
outcome, the Gemini service as a function from the prompt to an optional
reply text (`none` models a raised exception), and the wall-clock reading
`datetime.now()` takes when the cycle commits. -/
structure CycleInput where
  query : QueryOutcome
  gen : List Char → Option (List Char)
  now : Nat

/-- Key of the `summary` field. -/
def kSummary : List Char := "summary".data

/-- Key of the `threat_type` field. -/
def kThreatType : List Char := "threat_type".data

/-- Key of the `recommendations` field. -/
def kRecommendations : List Char := "recommendations".data

/-- Key of the `last_updated` field. -/
def kLastUpdated : List Char := "last_updated".data

/-- The placeholder briefing the global `ai_analysis_cache` holds from
process start (src/api.py lines 24 to 29). -/
def ai_analysis_cache_init : List (List Char × Json) :=
  [(kSummary,
    Json.str ("AI analysis is initializing. Please check back in a few minutes...".data)),
   (kThreatType, Json.str ("Initializing...".data)),
   (kRecommendations, Json.arr [Json.str ("Waiting for first data batch...".data)]),
   (kLastUpdated, Json.null)]

/-- Decimal rendering of a natural number. -/
def natToChars (n : Nat) : List Char := (Nat.repr n).data

/-- Join pieces with a separator. -/
def sepJoin (sep : List Char) : List (List Char) → List Char
  | [] => []
  | [x] => x
  | x :: xs => x ++ sep ++ sepJoin sep xs

/-- Python `repr` quote character. -/
def quoteChar : Char := Char.ofNat 39

/-- Python `str(list_of_strings)` as produced by the f-strings at src/api.py
lines 82 to 85: bucket keys single-quoted, comma separated, in brackets. -/
def pyReprStrKeys (bs : List (List Char × Nat)) : List Char :=
  '[' :: sepJoin (", ".data) (bs.map (fun b => quoteChar :: b.1 ++ [quoteChar])) ++ [']']

/-- Python `str(list_of_ints)` for the port bucket keys (src/api.py line 84). -/
def pyReprNatKeys (bs : List (Nat × Nat)) : List Char :=
  '[' :: sepJoin (", ".data) (bs.map (fun b => natToChars b.1)) ++ [']']

/-- The concise text briefing assembled at src/api.py lines 79 to 85. -/
def buildBriefingText (a : Aggs) (total_events : Nat) : List Char :=
  "Honeypot Security Briefing (last 15 mins):\n".data
    ++ "- Total Events: ".data ++ natToChars total_events ++ "\n".data
    ++ "- Unique Attacker IPs: ".data ++ natToChars a.unique_ips ++ "\n".data
    ++ "- Top Attacking Countries: ".data ++ pyReprStrKeys a.top_countries ++ "\n".data
    ++ "- Top Targeted Honeypots: ".data ++ pyReprStrKeys a.top_honeypots ++ "\n".data
    ++ "- Top Targeted Ports: ".data ++ pyReprNatKeys a.top_ports ++ "\n".data
    ++ "- Top Passwords Attempted: ".data ++ pyReprStrKeys a.top_passwords ++ "\n".data

/-- Text of the prompt before the embedded briefing (src/api.py lines 88
to 95, indentation of the triple-quoted literal normalised). -/
def promptHeader : List Char :=
  ("\nYou are a senior cybersecurity analyst. Based on the following honeypot "
    ++ "activity summary, provide a concise analysis in JSON format. The JSON object "
    ++ "must have three keys: \"summary\", \"threat_type\", and \"recommendations\".\n\n"
    ++ "- \"summary\": A brief, one-sentence summary of the activity in plain English.\n"
    ++ "- \"threat_type\": A short, descriptive label for the dominant threat pattern "
    ++ "(e.g., \"Automated Scanning\", \"SSH Brute-Force\", \"Web Server Probing\", "
    ++ "\"Coordinated Attack\").\n"
    ++ "- \"recommendations\": A JSON array of 2 short, actionable mitigation steps "
    ++ "a security admin should take.\n\nHere is the data:\n").data

/-- Text of the prompt after the embedded briefing (src/api.py line 98). -/
def promptFooter : List Char :=
  "\n\nProvide only the raw JSON object as your response.\n".data

/-- The prompt sent to Gemini (src/api.py lines 88 to 99), embedding the
briefing text verbatim. -/
def buildPrompt (briefing : List Char) : List Char :=
  promptHeader ++ briefing ++ promptFooter

/-- Embedding of the refresh orchestrator `fetch_and_analyze_data`
(src/api.py lines 49 to 115) as a function from the external outcomes and
the current cache to the next cache.  Every exception raised inside the
`try` block is caught at line 114 and leaves the cache unchanged, so each
failing branch returns the incoming cache; the only write is the commit at
line 111.  A parsed value that is not an object makes the item assignment
at line 110 raise `TypeError`, also caught - hence the wildcard branch. -/
def fetch_and_analyze_data (cfg : Config) (i : CycleInput)
    (ai_analysis_cache : List (List Char × Json)) : List (List Char × Json) :=
  if !cfg.esAvailable || !cfg.modelAvailable then ai_analysis_cache
  else
    match i.query with
    | QueryOutcome.err => ai_analysis_cache
    | QueryOutcome.ok aggs total_events =>
      if total_events = 0 then ai_analysis_cache
      else
        match i.gen (buildPrompt (buildBriefingText aggs total_events)) with
        | none => ai_analysis_cache
        | some text =>
          match jsonLoads (cleanResponse text) with
          | some (Json.obj fields) =>
            setKey fields kLastUpdated (Json.num (Int.ofNat i.now))
          | _ => ai_analysis_cache

/-- Embedding of the `/api/ai-analysis` handler `get_ai_analysis`
(src/api.py lines 173 to 176): it returns the cache contents verbatim. -/
def get_ai_analysis (ai_analysis_cache : List (List Char × Json)) :
    List (List Char × Json) :=
  ai_analysis_cache

/-- The cache after a sequence of refresh cycles run from process start. -/
def runTrace (cfg : Config) (cycles : List CycleInput) : List (List Char × Json) :=
  cycles.foldl (fun cache i => fetch_and_analyze_data cfg i cache) ai_analysis_cache_init

/-- The value a cycle would commit, independent of the current cache:
`some` exactly on the committing path of `fetch_and_analyze_data`. -/
def commitVal (cfg : Config) (i : CycleInput) :
    Option (List (List Char × Json)) :=
  if !cfg.esAvailable || !cfg.modelAvailable then none
  else
    match i.query with
    | QueryOutcome.err => none
    | QueryOutcome.ok aggs total_events =>
      if total_events = 0 then none
      else
        match i.gen (buildPrompt (buildBriefingText aggs total_events)) with
        | none => none
        | some text =>
          match jsonLoads (cleanResponse text) with
          | some (Json.obj fields) =>
            some (setKey fields kLastUpdated (Json.num (Int.ofNat i.now)))
          | _ => none

/-- The `last_updated` entry of a cached briefing. -/
def lastUpdatedOf (cache : List (List Char × Json)) : Option Json :=
  lookupKey cache kLastUpdated

/-- Strict freshness order on `last_updated` values: the placeholder's null
(never updated yet) precedes every timestamp, and a numeric timestamp
precedes exactly the strictly larger clock readings. -/
def beforeTime (o : Option Json) (t : Nat) : Prop :=
  match o with
  | some (Json.num m) => m < (t : Int)
  | some Json.null => True
  | _ => False

/-- A committing cycle: the Gemini reply is a complete three-field object. -/
def c6input : CycleInput :=
  ⟨QueryOutcome.ok ⟨1, [], [], [], []⟩ 2,
   fun _ => some
     ("\x7b\"summary\": \"x\", \"threat_type\": \"y\", \"recommendations\": []\x7d".data),
   13⟩

/-- One aggregation bucket of an Elasticsearch response: a key and a
document count. -/
structure Bucket where
  key : Json
  doc_count : Nat

/-- One entry of a dashboard chart series, as built at src/api.py line 148. -/
structure ChartEntry where
  name : Json
  value : Nat

/-- Embedding of the `format_buckets` helper of `get_dashboard_data`
(src/api.py lines 146 to 148): absent aggregation data gives `[]`,
otherwise every bucket is mapped in order to a (name, value) entry. -/
def format_buckets (agg_data : Option (List Bucket)) : List ChartEntry :=
  match agg_data with
  | none => []
  | some bs => bs.map (fun b => ⟨b.key, b.doc_count⟩)

/-- The hour index of an event timestamp (timestamps in minutes). -/
def hourOf (t : Nat) : Nat := t / 60

/-- Lower bound of the dashboard range query, `now-24h/h` (now minus 24
hours, rounded down to the hour), in minutes (src/api.py line 130). -/
def rangeGte (now : Nat) : Nat := ((now - 1440) / 60) * 60

/-- The events matched by the dashboard range query `gte now-24h/h`. -/
def matchedEvents (now : Nat) (events : List Nat) : List Nat :=
  events.filter (fun t => rangeGte now ≤ t)

/-- First generated bucket hour: the smaller of the extended-bounds minimum
`now-24h/h` and the earliest matched data hour. -/
def histLo (now : Nat) (events : List Nat) : Nat :=
  (matchedEvents now events).foldr (fun t a => min (hourOf t) a) ((now - 1440) / 60)

/-- Last generated bucket hour: the larger of the extended-bounds maximum
`now/h` and the latest matched data hour. -/
def histHi (now : Nat) (events : List Nat) : Nat :=
  (matchedEvents now events).foldr (fun t a => max (hourOf t) a) (now / 60)

/-- Model of the black-box analytics store's `date_histogram` answer for the
query issued at src/api.py lines 130 and 133 (`fixed_interval` one hour,
`min_doc_count` zero, `extended_bounds` from `now-24h/h` to `now/h`): per the
store's documented behaviour it emits one bucket for every hour from the
smaller of the bounds minimum and the earliest data hour up to the larger of
the bounds maximum and the latest data hour, each holding the count of
matched events in that hour - zero when the hour is empty. -/
def dateHistogram (now : Nat) (events : List Nat) : List Bucket :=
  (List.range (histHi now events - histLo now events + 1)).map
    (fun k => ⟨Json.num (Int.ofNat (histLo now events + k)),
      ((matchedEvents now events).filter
        (fun t => hourOf t = histLo now events + k)).length⟩)

/-- The `chart_attacks_over_time` series `/api/dashboard` returns
(src/api.py line 156): `format_buckets` over the store's histogram. -/
def chart_attacks_over_time (now : Nat) (events : List Nat) : List ChartEntry :=
  format_buckets (some (dateHistogram now events))

/-- The backtick character. -/
def btChar : Char := Char.ofNat 96

/-- Canonical JSON text of a string value whose content needs no escaping. -/
def renderStr (s : List Char) : List Char := '"' :: s ++ ['"']

/-- Canonical JSON text of the elements of the recommendation array. -/
def renderRecs : List (List Char) → List Char
  | [] => []
  | [r] => renderStr r
  | r :: rs => renderStr r ++ ',' :: renderRecs rs

/-- Canonical JSON text of a three-field briefing object, spelled in the
cons-led shape the parser consumes. -/
def renderBriefing (s t : List Char) (recs : List (List Char)) : List Char :=
  '\x7b' :: '"' :: ("summary".data ++ '"' :: ':' :: ' ' :: (renderStr s ++
    ',' :: ' ' :: '"' :: ("threat_type".data ++ '"' :: ':' :: ' ' :: (renderStr t ++
      ',' :: ' ' :: '"' :: ("recommendations".data ++ '"' :: ':' :: ' ' :: '[' ::
        (renderRecs recs ++ ']' :: ['\x7d']))))))

/-- A Gemini reply wrapping a body in code-fence markers. -/
def fencedReply (body : List Char) : List Char :=
  fenceJson ++ '\n' :: body ++ '\n' :: fence3

/-- A character that may stand verbatim inside a JSON string literal: not a
quote, not a backslash, not a backtick, not a control character. -/
def plainChar (c : Char) : Prop :=
  c ≠ '"' ∧ c ≠ '\\' ∧ c.toNat ≠ 96 ∧ 32 ≤ c.toNat

/-- Body of the C9 counterexample reply: a valid three-field object whose
summary text itself contains a code fence. -/
def c9body : List Char :=
  ("\x7b\"summary\": \"a\x60\x60\x60 b\", \"threat_type\": \"t\", "
    ++ "\"recommendations\": [\"r\"]\x7d").data

/-- The C9 counterexample reply: `c9body` wrapped in code-fence markers. -/
def c9reply : List Char := fencedReply c9body

/-- The object the counterexample reply wraps. -/
def c9origFields : List (List Char × Json) :=
  [(kSummary, Json.str ("a\x60\x60\x60 b".data)), (kThreatType, Json.str ("t".data)),
   (kRecommendations, Json.arr [Json.str ("r".data)])]

/-- The object actually recovered after fence stripping. -/
def c9gotFields : List (List Char × Json) :=
  [(kSummary, Json.str ("a b".data)), (kThreatType, Json.str ("t".data)),
   (kRecommendations, Json.arr [Json.str ("r".data)])]

instance (c : Char) : Decidable (plainChar c) := by
  unfold plainChar
  infer_instance

example :
    jsonLoads ("\x7b\"a\": [1, -2], \"b\": null\x7d".data) =
      some (Json.obj [("a".data, Json.arr [Json.num 1, Json.num (-2)]),
                      ("b".data, Json.null)]) := by
  rfl

example : jsonLoads ("\x7b\"a\": \x7d".data) = none := by rfl

example :
    jsonLoads ("\x7b\"a\": 1.5\x7d".data) =
      some (Json.obj [("a".data, Json.flt ("1.5".data))]) := by rfl

example :
    jsonLoads ("\x7b\"a\": 2e10\x7d".data) =
      some (Json.obj [("a".data, Json.flt ("2e10".data))]) := by rfl

example : jsonLoads ("\x7b\"a\": 007\x7d".data) = none := by rfl

example : jsonLoads ("01".data) = none := by rfl

example :
    jsonLoads ("\x7b\"a\": -Infinity\x7d".data) =
      some (Json.obj [("a".data, Json.flt ("-Infinity".data))]) := by rfl

example : jsonLoads ("\"caf\\u00e9\"".data) = some (Json.str ("café".data)) := by rfl

example : jsonLoads ("\"\\ud83d\\ude00\"".data) = some (Json.str ("😀".data)) := by rfl

example :
    jsonLoads ("\"\\ud800x\"".data) =
      some (Json.str [loneSurrogateChar, 'x']) := by rfl

example :
    cleanResponse ("```json\n\x7b\"a\": 1\x7d\n```".data) =
      ("\n\x7b\"a\": 1\x7d\n".data) := by decide

theorem fetch_eq_commitVal (cfg : Config) (i : CycleInput)
    (cache : List (List Char × Json)) :
    fetch_and_analyze_data cfg i cache = (commitVal cfg i).getD cache := by
  unfold fetch_and_analyze_data commitVal
  cases hes : (!cfg.esAvailable || !cfg.modelAvailable) with
  | true => rfl
  | false =>
    cases hq : i.query with
    | err => rfl
    | ok aggs total_events =>
      by_cases ht : total_events = 0
      · subst ht; rfl
      · simp only [if_neg ht]
        cases hg : i.gen (buildPrompt (buildBriefingText aggs total_events)) with
        | none => rfl
        | some text =>
          cases hj : jsonLoads (cleanResponse text) with
          | none => simp [hj]
          | some j => cases j <;> simp [hj]

theorem fetch_of_commit {cfg : Config} {i : CycleInput} {v : List (List Char × Json)}
    (cache : List (List Char × Json)) (h : commitVal cfg i = some v) :
    fetch_and_analyze_data cfg i cache = v := by
  rw [fetch_eq_commitVal, h]; rfl

theorem fetch_of_skip {cfg : Config} {i : CycleInput}
    (cache : List (List Char × Json)) (h : commitVal cfg i = none) :
    fetch_and_analyze_data cfg i cache = cache := by
  rw [fetch_eq_commitVal, h]; rfl

theorem runTrace_concat (cfg : Config) (cycles : List CycleInput) (i : CycleInput) :
    runTrace cfg (cycles ++ [i]) = fetch_and_analyze_data cfg i (runTrace cfg cycles) := by
  unfold runTrace
  rw [List.foldl_append]
  rfl

/-- C3: for every refresh cycle, if the analytics-store query raises any
error, the cache after the cycle equals the cache before the cycle.  The
orchestrator is embedded as a total function (the `except` block at
src/api.py line 114 catches the error), so no error propagates out of it. -/
theorem c3_query_failure_leaves_cache (cfg : Config) (i : CycleInput)
    (cache : List (List Char × Json)) (h : i.query = QueryOutcome.err) :
    fetch_and_analyze_data cfg i cache = cache := by
  unfold fetch_and_analyze_data
  rw [h]
  cases (!cfg.esAvailable || !cfg.modelAvailable) <;> rfl

/-- Witness for C3: a concrete cycle whose query fails leaves the
placeholder cache in place. -/
theorem c3_witness :
    fetch_and_analyze_data ⟨true, true⟩ ⟨QueryOutcome.err, fun _ => none, 5⟩
      ai_analysis_cache_init = ai_analysis_cache_init :=
  c3_query_failure_leaves_cache ⟨true, true⟩ ⟨QueryOutcome.err, fun _ => none, 5⟩
    ai_analysis_cache_init rfl

/-- C4: a refresh cycle whose 15-minute window matched zero events never
commits (its commit value is `none`, so the composing and summarizing steps
are never consulted - the conclusion holds for every Gemini behaviour
`i.gen`), and the cache after the cycle equals the cache before it
(src/api.py lines 73 to 76). -/
theorem c4_zero_events_leaves_cache (cfg : Config) (i : CycleInput)
    (cache : List (List Char × Json)) (a : Aggs)
    (h : i.query = QueryOutcome.ok a 0) :
    fetch_and_analyze_data cfg i cache = cache ∧ commitVal cfg i = none := by
  constructor
  · unfold fetch_and_analyze_data
    rw [h]
    cases (!cfg.esAvailable || !cfg.modelAvailable) <;> rfl
  · unfold commitVal
    rw [h]
    cases (!cfg.esAvailable || !cfg.modelAvailable) <;> rfl

/-- Witness for C4: a concrete empty-window cycle, with a Gemini stub that
would answer, still leaves the cache alone and skips. -/
theorem c4_witness :
    fetch_and_analyze_data ⟨true, true⟩
        ⟨QueryOutcome.ok ⟨0, [], [], [], []⟩ 0, fun _ => some ("\x7b\x7d".data), 9⟩
        ai_analysis_cache_init = ai_analysis_cache_init ∧
      commitVal ⟨true, true⟩
        ⟨QueryOutcome.ok ⟨0, [], [], [], []⟩ 0, fun _ => some ("\x7b\x7d".data), 9⟩ = none :=
  c4_zero_events_leaves_cache ⟨true, true⟩
    ⟨QueryOutcome.ok ⟨0, [], [], [], []⟩ 0, fun _ => some ("\x7b\x7d".data), 9⟩
    ai_analysis_cache_init ⟨0, [], [], [], []⟩ rfl

/-- C2: from process start onward, after any sequence of refresh cycles, the
read endpoint returns the cache contents (it is total, so a read never fails
and never sees an absent cache), and the cache holds exactly one briefing:
either still the placeholder, or the value committed by the most recent
committing cycle (every later cycle skipped). -/
theorem c2_cache_always_one_briefing (cfg : Config) (cycles : List CycleInput) :
    get_ai_analysis (runTrace cfg cycles) = runTrace cfg cycles ∧
      (runTrace cfg cycles = ai_analysis_cache_init ∨
        ∃ pre i post, cycles = pre ++ i :: post ∧
          commitVal cfg i = some (runTrace cfg cycles) ∧
          ∀ j ∈ post, commitVal cfg j = none) := by
  refine ⟨rfl, ?_⟩
  induction cycles using List.reverseRecOn with
  | nil => exact Or.inl rfl
  | append_singleton is i ih =>
    cases hc : commitVal cfg i with
    | some v =>
      refine Or.inr ⟨is, i, [], by simp, ?_, by simp⟩
      rw [hc, runTrace_concat, fetch_of_commit _ hc]
    | none =>
      have hrt : runTrace cfg (is ++ [i]) = runTrace cfg is := by
        rw [runTrace_concat, fetch_of_skip _ hc]
      rw [hrt]
      rcases ih with hinit | ⟨pre, j, post, hsplit, hcommit, hskips⟩
      · exact Or.inl hinit
      · refine Or.inr ⟨pre, j, post ++ [i], by rw [hsplit]; simp, hcommit, ?_⟩
        intro k hk
        rcases List.mem_append.mp hk with hk' | hk'
        · exact hskips k hk'
        · rw [List.mem_singleton.mp hk']
          exact hc

/-- C10: before any cycle has committed, every read of `/api/ai-analysis`
returns the placeholder briefing, and the placeholder's `last_updated`
field is JSON null (Python `None`), not a timestamp. -/
theorem c10_placeholder_before_first_commit (cfg : Config)
    (cycles : List CycleInput) (h : ∀ i ∈ cycles, commitVal cfg i = none) :
    get_ai_analysis (runTrace cfg cycles) = ai_analysis_cache_init ∧
      lookupKey ai_analysis_cache_init kLastUpdated = some Json.null := by
  refine ⟨?_, by rfl⟩
  unfold get_ai_analysis
  revert h
  induction cycles using List.reverseRecOn with
  | nil => intro _; rfl
  | append_singleton is i ih =>
    intro h
    have hi : commitVal cfg i = none := h i (by simp)
    rw [runTrace_concat, fetch_of_skip _ hi]
    exact ih fun j hj => h j (by simp [hj])

/-- Witness for C10: one failing cycle later, the endpoint still serves the
placeholder with its null timestamp. -/
theorem c10_witness :
    get_ai_analysis (runTrace ⟨true, true⟩ [⟨QueryOutcome.err, fun _ => none, 3⟩]) =
        ai_analysis_cache_init ∧
      lookupKey ai_analysis_cache_init kLastUpdated = some Json.null :=
  c10_placeholder_before_first_commit ⟨true, true⟩
    [⟨QueryOutcome.err, fun _ => none, 3⟩]
    (by intro i hi
        rw [List.mem_singleton.mp hi]
        rfl)

theorem lookupKey_setKey (fs : List (List Char × Json)) (k : List Char) (v : Json) :
    lookupKey (setKey fs k v) k = some v := by
  induction fs with
  | nil => simp [setKey, lookupKey]
  | cons kv rest ih =>
    obtain ⟨k', v'⟩ := kv
    by_cases h : k' = k
    · simp [setKey, lookupKey, h]
    · simp [setKey, lookupKey, h, ih]

theorem commitVal_lastUpdated {cfg : Config} {i : CycleInput}
    {v : List (List Char × Json)} (h : commitVal cfg i = some v) :
    lastUpdatedOf v = some (Json.num (Int.ofNat i.now)) := by
  unfold commitVal at h
  repeat' split at h
  all_goals first
    | exact Option.noConfusion h
    | (injection h with h'
       subst h'
       exact lookupKey_setKey _ _ _)

theorem lastUpdated_inv (cfg : Config) (cycles : List CycleInput) :
    lastUpdatedOf (runTrace cfg cycles) = some Json.null ∨
      ∃ j ∈ cycles, lastUpdatedOf (runTrace cfg cycles) = some (Json.num (Int.ofNat j.now)) := by
  induction cycles using List.reverseRecOn with
  | nil => exact Or.inl rfl
  | append_singleton is i ih =>
    cases hc : commitVal cfg i with
    | none =>
      have hrt : runTrace cfg (is ++ [i]) = runTrace cfg is := by
        rw [runTrace_concat, fetch_of_skip _ hc]
      rw [hrt]
      rcases ih with h | ⟨j, hj, hh⟩
      · exact Or.inl h
      · exact Or.inr ⟨j, by simp [hj], hh⟩
    | some v =>
      have hrt : runTrace cfg (is ++ [i]) = v := by
        rw [runTrace_concat, fetch_of_commit _ hc]
      rw [hrt]
      exact Or.inr ⟨i, by simp, commitVal_lastUpdated hc⟩

/-- C6: for every committing refresh cycle run after the cycles `pre` (whose
clock readings all precede the committing cycle's, as they do under the
serialized scheduler), the committed cache's `last_updated` is the fresh
timestamp, and the pre-cycle cache's `last_updated` is strictly earlier in
the order where the placeholder's null precedes every timestamp - so this
covers the first successful cycle, whose pre-cycle value is the
placeholder's null. -/
theorem c6_monotonic_freshness (cfg : Config) (pre : List CycleInput) (i : CycleInput)
    (v : List (List Char × Json))
    (hclock : ∀ j ∈ pre, j.now < i.now)
    (hcommit : commitVal cfg i = some v) :
    lastUpdatedOf (runTrace cfg (pre ++ [i])) = some (Json.num (Int.ofNat i.now)) ∧
      beforeTime (lastUpdatedOf (runTrace cfg pre)) i.now := by
  constructor
  · rw [runTrace_concat, fetch_of_commit _ hcommit]
    exact commitVal_lastUpdated hcommit
  · rcases lastUpdated_inv cfg pre with h | ⟨j, hj, hh⟩
    · unfold beforeTime
      rw [h]
      trivial
    · unfold beforeTime
      rw [hh]
      exact Int.ofNat_lt.mpr (hclock j hj)

/-- Witness for C6: the first successful cycle stamps 13 and the placeholder
it replaced is strictly earlier. -/
theorem c6_witness :
    lastUpdatedOf (runTrace ⟨true, true⟩ ([] ++ [c6input])) =
        some (Json.num (Int.ofNat 13)) ∧
      beforeTime (lastUpdatedOf (runTrace ⟨true, true⟩ [])) 13 :=
  c6_monotonic_freshness ⟨true, true⟩ [] c6input
    [(kSummary, Json.str ("x".data)), (kThreatType, Json.str ("y".data)),
     (kRecommendations, Json.arr []), (kLastUpdated, Json.num (Int.ofNat 13))]
    (fun j hj => absurd hj (List.not_mem_nil j)) rfl

theorem foldr_min_eq (f : Nat → Nat) (l : List Nat) (b : Nat)
    (h : ∀ x ∈ l, b ≤ f x) : l.foldr (fun t a => min (f t) a) b = b := by
  induction l with
  | nil => rfl
  | cons x xs ih =>
    simp only [List.foldr_cons]
    rw [ih fun y hy => h y (List.mem_cons_of_mem x hy)]
    exact min_eq_right (h x (List.mem_cons_self x xs))

theorem foldr_max_eq (f : Nat → Nat) (l : List Nat) (b : Nat)
    (h : ∀ x ∈ l, f x ≤ b) : l.foldr (fun t a => max (f t) a) b = b := by
  induction l with
  | nil => rfl
  | cons x xs ih =>
    simp only [List.foldr_cons]
    rw [ih fun y hy => h y (List.mem_cons_of_mem x hy)]
    exact max_eq_right (h x (List.mem_cons_self x xs))

theorem histLo_eq (now : Nat) (events : List Nat) (hnow : 1440 ≤ now) :
    histLo now events = now / 60 - 24 := by
  have hstep : ∀ x ∈ matchedEvents now events, (now - 1440) / 60 ≤ hourOf x := by
    intro x hx
    unfold matchedEvents at hx
    have hm := List.mem_filter.mp hx
    have hge : rangeGte now ≤ x := by simpa using hm.2
    unfold rangeGte at hge
    unfold hourOf
    exact (Nat.le_div_iff_mul_le (by norm_num)).mpr hge
  unfold histLo
  rw [foldr_min_eq hourOf _ _ hstep]
  omega

theorem histHi_eq (now : Nat) (events : List Nat) (hev : ∀ t ∈ events, t ≤ now) :
    histHi now events = now / 60 := by
  have hstep : ∀ x ∈ matchedEvents now events, hourOf x ≤ now / 60 := by
    intro x hx
    unfold matchedEvents at hx
    have hm := List.mem_filter.mp hx
    exact Nat.div_le_div_right (hev x hm.1)
  unfold histHi
  rw [foldr_max_eq hourOf _ _ hstep]

/-- Counterexample to C8 as stated: the query's extended bounds include
both endpoint hours (`now-24h/h` through `now/h`), so even with no events
at all the series has 25 entries, not 24. -/
theorem c8_counterexample :
    (chart_attacks_over_time 2880 []).length = 25 ∧
      (chart_attacks_over_time 2880 []).length ≠ 24 := by
  constructor <;> decide

/-- C8 amended: for a store response following the documented histogram
behaviour for this query, the series has exactly 25 hourly entries - one
for each hour from `now/h - 24` to `now/h`, both endpoints included - and
the entry of each hour carries the count of the matched events in that
hour, zero when there are none.  Hypotheses: the clock is at least 24 hours
past the epoch, and no event timestamp lies in the future. -/
theorem c8_25_hourly_buckets (now : Nat) (events : List Nat)
    (hnow : 1440 ≤ now) (hev : ∀ t ∈ events, t ≤ now) :
    chart_attacks_over_time now events =
      (List.range 25).map (fun k =>
        ⟨Json.num (Int.ofNat (now / 60 - 24 + k)),
         ((matchedEvents now events).filter
           (fun t => hourOf t = now / 60 - 24 + k)).length⟩) ∧
      (chart_attacks_over_time now events).length = 25 := by
  have hlo := histLo_eq now events hnow
  have hhi := histHi_eq now events hev
  have h24 : 24 ≤ now / 60 := by omega
  have hcount : histHi now events - histLo now events + 1 = 25 := by
    rw [hlo, hhi]; omega
  have hmain : chart_attacks_over_time now events =
      (List.range 25).map (fun k =>
        ⟨Json.num (Int.ofNat (now / 60 - 24 + k)),
         ((matchedEvents now events).filter
           (fun t => hourOf t = now / 60 - 24 + k)).length⟩) := by
    unfold chart_attacks_over_time format_buckets dateHistogram
    rw [hcount, hlo]
    simp [List.map_map]
  refine ⟨hmain, ?_⟩
  rw [hmain]
  simp

/-- Witness for the amended C8 at a concrete clock and event list. -/
theorem c8_25_hourly_buckets_witness :
    chart_attacks_over_time 2880 [1500, 2870, 2875] =
      (List.range 25).map (fun k =>
        ⟨Json.num (Int.ofNat (2880 / 60 - 24 + k)),
         ((matchedEvents 2880 [1500, 2870, 2875]).filter
           (fun t => hourOf t = 2880 / 60 - 24 + k)).length⟩) ∧
      (chart_attacks_over_time 2880 [1500, 2870, 2875]).length = 25 :=
  c8_25_hourly_buckets 2880 [1500, 2870, 2875] (by decide)
    (by intro t ht
        fin_cases ht <;> decide)

/-- Counterexample to C9 as stated: the reply wraps a valid three-field
object, but because `replace` removes every occurrence of the fence marker
(src/api.py line 107), the backticks inside the summary string are removed
too - the stripped text still parses, but to a different object. -/
theorem c9_counterexample :
    jsonLoads c9body = some (Json.obj c9origFields) ∧
      jsonLoads (cleanResponse c9reply) = some (Json.obj c9gotFields) ∧
      lookupKey c9origFields kSummary = some (Json.str ("a\x60\x60\x60 b".data)) ∧
      lookupKey c9gotFields kSummary = some (Json.str ("a b".data)) ∧
      jsonLoads (cleanResponse c9reply) ≠ some (Json.obj c9origFields) := by
  refine ⟨rfl, rfl, rfl, rfl, fun h => ?_⟩
  have h2 : Json.obj c9gotFields = Json.obj c9origFields := by
    have h1 : some (Json.obj c9gotFields) = some (Json.obj c9origFields) :=
      (rfl : jsonLoads (cleanResponse c9reply) = some (Json.obj c9gotFields)).symm.trans h
    injection h1
  have h4 : c9gotFields = c9origFields := by injection h2
  have h5 : lookupKey c9gotFields kSummary = lookupKey c9origFields kSummary :=
    congrArg (fun l => lookupKey l kSummary) h4
  have h6 : some (Json.str ("a b".data)) = some (Json.str ("a\x60\x60\x60 b".data)) := h5
  have h7 : Json.str ("a b".data) = Json.str ("a\x60\x60\x60 b".data) := by injection h6
  have h8 : ("a b".data : List Char) = "a\x60\x60\x60 b".data := by injection h7
  exact absurd h8 (by decide)

theorem pyStrip_fencedReply (body : List Char) :
    pyStrip (fencedReply body) = fencedReply body := by
  have hA : fencedReply body = (fenceJson ++ '\n' :: body) ++ ('\n' :: fence3) := by
    simp [fencedReply]
  have hd1 : (fencedReply body).dropWhile isPyWs = fencedReply body := by
    rw [show fencedReply body =
          btChar :: ("\x60\x60json".data ++ '\n' :: body ++ '\n' :: fence3) from rfl]
    exact List.dropWhile_cons_of_neg (by decide)
  have hd2 : (fencedReply body).reverse.dropWhile isPyWs = (fencedReply body).reverse := by
    rw [hA, List.reverse_append]
    rw [show ('\n' :: fence3).reverse = btChar :: "\x60\x60\n".data from by decide]
    rw [List.cons_append]
    exact List.dropWhile_cons_of_neg (by decide)
  unfold pyStrip
  rw [hd1, hd2, List.reverse_reverse]

theorem replaceAll_cons_eq (pat repl : List Char) (c : Char) (cs : List Char) (f : Nat) :
    replaceAll pat repl (f + 1) (c :: cs) =
      if pat ≠ [] ∧ pat.isPrefixOf (c :: cs) = true then
        repl ++ replaceAll pat repl f (List.drop pat.length (c :: cs))
      else c :: replaceAll pat repl f cs := rfl

theorem replaceAll_skip (h0 : Char) (pat' repl : List Char) :
    ∀ (s₁ s₂ : List Char) (f : Nat), s₁.length + s₂.length ≤ f → h0 ∉ s₁ →
      replaceAll (h0 :: pat') repl f (s₁ ++ s₂) =
        s₁ ++ replaceAll (h0 :: pat') repl (f - s₁.length) s₂ := by
  intro s₁
  induction s₁ with
  | nil =>
    intro s₂ f _ _
    simp
  | cons c cs ih =>
    intro s₂ f hf hmem
    have hne : ¬ (h0 = c) := fun he => hmem (by rw [he]; exact List.mem_cons_self c cs)
    cases f with
    | zero => simp at hf
    | succ f' =>
      show replaceAll (h0 :: pat') repl (f' + 1) (c :: (cs ++ s₂)) = _
      have hcond : ¬((h0 :: pat') ≠ [] ∧
          (h0 :: pat').isPrefixOf (c :: (cs ++ s₂)) = true) := by
        intro hcl
        have hpre := hcl.2
        rw [List.isPrefixOf_cons₂] at hpre
        simp [hne] at hpre
      rw [replaceAll_cons_eq, if_neg hcond]
      rw [ih s₂ f' (by simp only [List.length_cons] at hf; omega)
          (fun hx => hmem (List.mem_cons_of_mem c hx))]
      simp [Nat.succ_sub_succ]

theorem replaceAll_head_match (pat repl rest : List Char) (f : Nat) (hp : pat ≠ []) :
    replaceAll pat repl (f + 1) (pat ++ rest) = repl ++ replaceAll pat repl f rest := by
  cases pat with
  | nil => exact absurd rfl hp
  | cons p ps =>
    show replaceAll (p :: ps) repl (f + 1) (p :: (ps ++ rest)) = _
    have hpre : (p :: ps).isPrefixOf (p :: (ps ++ rest)) = true := by
      rw [show p :: (ps ++ rest) = (p :: ps) ++ rest from rfl]
      exact List.isPrefixOf_iff_prefix.mpr (List.prefix_append _ _)
    rw [replaceAll_cons_eq, if_pos ⟨List.cons_ne_nil p ps, hpre⟩]
    congr 1
    rw [show p :: (ps ++ rest) = (p :: ps) ++ rest from rfl, List.drop_left]

theorem replace1_fenced (body : List Char) (hnb : ∀ c ∈ body, c.toNat ≠ 96) :
    pyReplace (fencedReply body) fenceJson [] = '\n' :: body ++ '\n' :: fence3 := by
  have hmem : btChar ∉ '\n' :: body ++ ['\n'] := by
    intro hx
    rcases List.mem_cons.mp hx with h1 | h1
    · exact absurd (congrArg Char.toNat h1) (by decide)
    · rcases List.mem_append.mp h1 with h2 | h2
      · exact hnb btChar h2 rfl
      · exact absurd (congrArg Char.toNat (List.mem_singleton.mp h2)) (by decide)
  unfold pyReplace
  have hlen : (fencedReply body).length = body.length + 12 := by
    simp [fencedReply, fenceJson, fence3]
  rw [hlen]
  rw [show fencedReply body = fenceJson ++ ('\n' :: body ++ '\n' :: fence3) from rfl]
  rw [show body.length + 12 = (body.length + 11) + 1 from rfl]
  rw [replaceAll_head_match fenceJson [] _ _ (by decide)]
  rw [show '\n' :: body ++ '\n' :: fence3 = ('\n' :: body ++ ['\n']) ++ fence3 from by simp]
  rw [show fenceJson = btChar :: "\x60\x60json".data from rfl]
  rw [replaceAll_skip btChar ("\x60\x60json".data) [] ('\n' :: body ++ ['\n']) fence3
    (body.length + 11) (by simp [fence3]) hmem]
  rw [show body.length + 11 - ('\n' :: body ++ ['\n']).length = 9 from by simp]
  rw [show replaceAll (btChar :: "\x60\x60json".data) [] 9 fence3 = fence3 from by decide]
  simp

theorem replace2_stripped (body : List Char) (hnb : ∀ c ∈ body, c.toNat ≠ 96) :
    pyReplace ('\n' :: body ++ '\n' :: fence3) fence3 [] = '\n' :: body ++ ['\n'] := by
  have hmem : btChar ∉ '\n' :: body ++ ['\n'] := by
    intro hx
    rcases List.mem_cons.mp hx with h1 | h1
    · exact absurd (congrArg Char.toNat h1) (by decide)
    · rcases List.mem_append.mp h1 with h2 | h2
      · exact hnb btChar h2 rfl
      · exact absurd (congrArg Char.toNat (List.mem_singleton.mp h2)) (by decide)
  unfold pyReplace
  have hlen : ('\n' :: body ++ '\n' :: fence3).length = body.length + 5 := by
    simp [fence3]
  rw [hlen]
  rw [show '\n' :: body ++ '\n' :: fence3 = ('\n' :: body ++ ['\n']) ++ fence3 from by simp]
  rw [show fence3 = btChar :: "\x60\x60".data from rfl]
  rw [replaceAll_skip btChar ("\x60\x60".data) [] ('\n' :: body ++ ['\n'])
    (btChar :: "\x60\x60".data) (body.length + 5) (by simp) hmem]
  rw [show body.length + 5 - ('\n' :: body ++ ['\n']).length = 3 from by simp]
  rw [show replaceAll (btChar :: "\x60\x60".data) [] 3 (btChar :: "\x60\x60".data) = []
    from by decide]
  simp

theorem cleanResponse_fenced (body : List Char) (hnb : ∀ c ∈ body, c.toNat ≠ 96) :
    cleanResponse (fencedReply body) = '\n' :: body ++ ['\n'] := by
  unfold cleanResponse
  rw [pyStrip_fencedReply, replace1_fenced body hnb, replace2_stripped body hnb]

example :
    renderBriefing ("s".data) ("t".data) ["r".data] =
      ("\x7b\"summary\": \"s\", \"threat_type\": \"t\", "
        ++ "\"recommendations\": [\"r\"]\x7d").data := by decide

example :
    jsonLoads (renderBriefing ("s".data) ("t".data) ["r".data, "q".data]) =
      some (Json.obj [(kSummary, Json.str ("s".data)),
                      (kThreatType, Json.str ("t".data)),
                      (kRecommendations,
                        Json.arr [Json.str ("r".data), Json.str ("q".data)])]) := by rfl

theorem parseCore_val_string_eq (f : Nat) (s2 : List Char) :
    parseCore (f + 1) PMode.val ('"' :: s2) =
      (match parseStringBody (s2.length + 1) s2 with
       | some (cs, r) => some (PRes.v (Json.str cs), r)
       | none => none) := rfl

theorem parseCore_val_arr_eq (f : Nat) (s2 : List Char) :
    parseCore (f + 1) PMode.val ('[' :: s2) =
      (match skipWs s2 with
       | ']' :: r => some (PRes.v (Json.arr []), r)
       | _ =>
         match parseCore f PMode.elems s2 with
         | some (PRes.vs l, r) => some (PRes.v (Json.arr l), r)
         | _ => none) := rfl

theorem parseCore_val_obj_eq (f : Nat) (s2 : List Char) :
    parseCore (f + 1) PMode.val ('\x7b' :: s2) =
      (match skipWs s2 with
       | '\x7d' :: r => some (PRes.v (Json.obj []), r)
       | _ =>
         match parseCore f PMode.members s2 with
         | some (PRes.ms fs, r) => some (PRes.v (Json.obj (mkObj fs)), r)
         | _ => none) := rfl

theorem parseCore_elems_eq (f : Nat) (s2 : List Char) :
    parseCore (f + 1) PMode.elems s2 =
      (match parseCore f PMode.val s2 with
       | some (PRes.v j, rest) =>
         (match skipWs rest with
          | ',' :: r =>
            match parseCore f PMode.elems r with
            | some (PRes.vs l, r') => some (PRes.vs (j :: l), r')
            | _ => none
          | ']' :: r => some (PRes.vs [j], r)
          | _ => none)
       | _ => none) := rfl

theorem parseCore_members_eq (f : Nat) (s2 : List Char) :
    parseCore (f + 1) PMode.members ('"' :: s2) =
      (match parseStringBody (s2.length + 1) s2 with
       | some (k, r1) =>
         (match skipWs r1 with
          | ':' :: r2 =>
            match parseCore f PMode.val r2 with
            | some (PRes.v j, r3) =>
              (match skipWs r3 with
               | ',' :: r4 =>
                 match parseCore f PMode.members r4 with
                 | some (PRes.ms fs, r5) => some (PRes.ms ((k, j) :: fs), r5)
                 | _ => none
               | '\x7d' :: r4 => some (PRes.ms [(k, j)], r4)
               | _ => none)
            | _ => none
          | _ => none)
       | none => none) := rfl

theorem skipWs_cons (c : Char) (cs : List Char) :
    skipWs (c :: cs) = if isJsonWs c then skipWs cs else c :: cs := rfl

theorem skipWs_cons_not (c : Char) (cs : List Char) (h : isJsonWs c = false) :
    skipWs (c :: cs) = c :: cs := by
  rw [skipWs_cons, h]
  simp

theorem skipWs_cons_ws (c : Char) (cs : List Char) (h : isJsonWs c = true) :
    skipWs (c :: cs) = skipWs cs := by
  rw [skipWs_cons, h]
  simp

theorem parseStringBody_plain (s rest : List Char) :
    ∀ fuel : Nat, (∀ c ∈ s, plainChar c) → s.length + 1 ≤ fuel →
    parseStringBody fuel (s ++ '"' :: rest) = some (s, rest) := by
  induction s with
  | nil =>
    intro fuel _ hf
    obtain ⟨g, rfl⟩ : ∃ g, fuel = g + 1 := ⟨fuel - 1, by omega⟩
    show parseStringBody (g + 1) ('"' :: rest) = some ([], rest)
    unfold parseStringBody
    simp
  | cons c cs ih =>
    intro fuel h hf
    obtain ⟨g, rfl⟩ : ∃ g, fuel = g + 1 := ⟨fuel - 1, by omega⟩
    obtain ⟨h1, h2, _, h4⟩ := h c (List.mem_cons_self c cs)
    show parseStringBody (g + 1) (c :: (cs ++ '"' :: rest)) = some (c :: cs, rest)
    unfold parseStringBody
    rw [if_neg h1, if_neg h2, if_neg (by omega)]
    rw [ih g (fun x hx => h x (List.mem_cons_of_mem c hx))
      (by simp only [List.length_cons] at hf; omega)]

theorem parseCore_val_eq (f : Nat) (s : List Char) :
    parseCore (f + 1) PMode.val s =
      (match skipWs s with
       | '"' :: rest =>
         (match parseStringBody (rest.length + 1) rest with
          | some (cs, r) => some (PRes.v (Json.str cs), r)
          | none => none)
       | '\x7b' :: rest =>
         (match skipWs rest with
          | '\x7d' :: r => some (PRes.v (Json.obj []), r)
          | _ =>
            match parseCore f PMode.members rest with
            | some (PRes.ms fs, r) => some (PRes.v (Json.obj (mkObj fs)), r)
            | _ => none)
       | '[' :: rest =>
         (match skipWs rest with
          | ']' :: r => some (PRes.v (Json.arr []), r)
          | _ =>
            match parseCore f PMode.elems rest with
            | some (PRes.vs l, r) => some (PRes.v (Json.arr l), r)
            | _ => none)
       | 'n' :: 'u' :: 'l' :: 'l' :: rest => some (PRes.v Json.null, rest)
       | 't' :: 'r' :: 'u' :: 'e' :: rest => some (PRes.v (Json.bool true), rest)
       | 'f' :: 'a' :: 'l' :: 's' :: 'e' :: rest => some (PRes.v (Json.bool false), rest)
       | s' => parseNum s' |>.map (fun jr => (PRes.v jr.1, jr.2))) := rfl

theorem parseCore_val_of_string (f : Nat) (s v r : List Char)
    (hws : skipWs s = '"' :: (v ++ '"' :: r)) (hv : ∀ c ∈ v, plainChar c) :
    parseCore (f + 1) PMode.val s = some (PRes.v (Json.str v), r) := by
  rw [parseCore_val_eq, hws]
  show (match parseStringBody ((v ++ '"' :: r).length + 1) (v ++ '"' :: r) with
        | some (cs, r') => some (PRes.v (Json.str cs), r')
        | none => none) = some (PRes.v (Json.str v), r)
  rw [parseStringBody_plain v r ((v ++ '"' :: r).length + 1) hv
    (by simp only [List.length_append, List.length_cons]; omega)]

theorem parseCore_val_of_obj (f : Nat) (s s2 : List Char)
    (hws : skipWs s = '\x7b' :: s2) :
    parseCore (f + 1) PMode.val s =
      (match skipWs s2 with
       | '\x7d' :: r => some (PRes.v (Json.obj []), r)
       | _ =>
         match parseCore f PMode.members s2 with
         | some (PRes.ms fs, r) => some (PRes.v (Json.obj (mkObj fs)), r)
         | _ => none) := by
  rw [parseCore_val_eq, hws]
  rfl

theorem parseCore_val_of_arr (f : Nat) (s s2 : List Char)
    (hws : skipWs s = '[' :: s2) :
    parseCore (f + 1) PMode.val s =
      (match skipWs s2 with
       | ']' :: r => some (PRes.v (Json.arr []), r)
       | _ =>
         match parseCore f PMode.elems s2 with
         | some (PRes.vs l, r) => some (PRes.v (Json.arr l), r)
         | _ => none) := by
  rw [parseCore_val_eq, hws]
  rfl

theorem parseCore_members_body_eq (f : Nat) (s : List Char) :
    parseCore (f + 1) PMode.members s =
      (match skipWs s with
       | '"' :: rest =>
         (match parseStringBody (rest.length + 1) rest with
          | some (k, r1) =>
            (match skipWs r1 with
             | ':' :: r2 =>
               (match parseCore f PMode.val r2 with
                | some (PRes.v j, r3) =>
                  (match skipWs r3 with
                   | ',' :: r4 =>
                     (match parseCore f PMode.members r4 with
                      | some (PRes.ms fs, r5) => some (PRes.ms ((k, j) :: fs), r5)
                      | _ => none)
                   | '\x7d' :: r4 => some (PRes.ms [(k, j)], r4)
                   | _ => none)
                | _ => none)
             | _ => none)
          | none => none)
       | _ => none) := rfl

theorem parseCore_members_of (f : Nat) (s k r2 : List Char)
    (hws : skipWs s = '"' :: (k ++ '"' :: ':' :: r2))
    (hk : ∀ c ∈ k, plainChar c) :
    parseCore (f + 1) PMode.members s =
      (match parseCore f PMode.val r2 with
       | some (PRes.v j, r3) =>
         (match skipWs r3 with
          | ',' :: r4 =>
            (match parseCore f PMode.members r4 with
             | some (PRes.ms fs, r5) => some (PRes.ms ((k, j) :: fs), r5)
             | _ => none)
          | '\x7d' :: r4 => some (PRes.ms [(k, j)], r4)
          | _ => none)
       | _ => none) := by
  rw [parseCore_members_body_eq, hws]
  show (match parseStringBody ((k ++ '"' :: ':' :: r2).length + 1)
          (k ++ '"' :: ':' :: r2) with
        | some (k', r1) =>
          (match skipWs r1 with
           | ':' :: r2' =>
             (match parseCore f PMode.val r2' with
              | some (PRes.v j, r3) =>
                (match skipWs r3 with
                 | ',' :: r4 =>
                   (match parseCore f PMode.members r4 with
                    | some (PRes.ms fs, r5) => some (PRes.ms ((k', j) :: fs), r5)
                    | _ => none)
                 | '\x7d' :: r4 => some (PRes.ms [(k', j)], r4)
                 | _ => none)
              | _ => none)
           | _ => none)
        | none => none) = _
  rw [parseStringBody_plain k (':' :: r2) ((k ++ '"' :: ':' :: r2).length + 1) hk
    (by simp only [List.length_append, List.length_cons]; omega)]
  show (match skipWs (':' :: r2) with
        | ':' :: r2' =>
          (match parseCore f PMode.val r2' with
           | some (PRes.v j, r3) =>
             (match skipWs r3 with
              | ',' :: r4 =>
                (match parseCore f PMode.members r4 with
                 | some (PRes.ms fs, r5) => some (PRes.ms ((k, j) :: fs), r5)
                 | _ => none)
              | '\x7d' :: r4 => some (PRes.ms [(k, j)], r4)
              | _ => none)
           | _ => none)
        | _ => none) = _
  rw [skipWs_cons_not ':' r2 (by decide)]
  rfl

theorem parseCore_elems_render (recs : List (List Char)) :
    ∀ (f : Nat) (rest : List Char),
      recs ≠ [] → (∀ r ∈ recs, ∀ c ∈ r, plainChar c) → recs.length + 1 ≤ f →
      parseCore f PMode.elems (renderRecs recs ++ ']' :: rest) =
        some (PRes.vs (recs.map Json.str), rest) := by
  induction recs with
  | nil =>
    intro f rest hne _ _
    exact absurd rfl hne
  | cons r rs ih =>
    intro f rest _ hr hf
    obtain ⟨f', rfl⟩ : ∃ f', f = f' + 1 := ⟨f - 1, by omega⟩
    simp only [List.length_cons] at hf
    rw [parseCore_elems_eq]
    cases rs with
    | nil =>
      have hsh : renderRecs [r] ++ ']' :: rest = '"' :: (r ++ '"' :: ']' :: rest) := by
        simp [renderRecs, renderStr]
      rw [hsh]
      obtain ⟨g, rfl⟩ : ∃ g, f' = g + 1 := ⟨f' - 1, by omega⟩
      rw [parseCore_val_of_string g _ r (']' :: rest)
        (skipWs_cons_not _ _ (by decide)) (hr r (by simp))]
      simp [skipWs_cons_not ']' rest (by decide)]
    | cons r2 rs2 =>
      have hsh : renderRecs (r :: r2 :: rs2) ++ ']' :: rest =
          '"' :: (r ++ '"' :: ',' :: (renderRecs (r2 :: rs2) ++ ']' :: rest)) := by
        simp [renderRecs, renderStr]
      rw [hsh]
      obtain ⟨g, rfl⟩ : ∃ g, f' = g + 1 := ⟨f' - 1, by omega⟩
      rw [parseCore_val_of_string g _ r (',' :: (renderRecs (r2 :: rs2) ++ ']' :: rest))
        (skipWs_cons_not _ _ (by decide)) (hr r (by simp))]
      have hih := ih (g + 1) rest (List.cons_ne_nil r2 rs2)
        (fun q hq => hr q (List.mem_cons_of_mem r hq))
        (by simp only [List.length_cons] at hf ⊢; omega)
      simp [skipWs_cons_not ',' _ (by decide), hih]

theorem renderRecs_head (r0 : List Char) (rs0 : List (List Char)) (Y : List Char) :
    ∃ tail, renderRecs (r0 :: rs0) ++ Y = '"' :: tail := by
  cases rs0 with
  | nil => exact ⟨r0 ++ '"' :: Y, by simp [renderRecs, renderStr]⟩
  | cons r1 rs1 =>
    exact ⟨r0 ++ '"' :: ',' :: (renderRecs (r1 :: rs1) ++ Y),
      by simp [renderRecs, renderStr]⟩

theorem mkObj_three (x y z : Json) :
    mkObj [(kSummary, x), (kThreatType, y), (kRecommendations, z)] =
      [(kSummary, x), (kThreatType, y), (kRecommendations, z)] := by
  simp [mkObj, setKey]
  rw [if_neg (by decide), if_neg (by decide)]

theorem parseCore_briefing (s t : List Char) (recs : List (List Char)) (rest : List Char)
    (f : Nat) (s0 : List Char)
    (hs : ∀ c ∈ s, plainChar c) (ht : ∀ c ∈ t, plainChar c)
    (hr : ∀ r ∈ recs, ∀ c ∈ r, plainChar c)
    (hf : recs.length + 1 ≤ f)
    (hws0 : skipWs s0 = renderBriefing s t recs ++ rest) :
    parseCore (f + 5) PMode.val s0 =
      some (PRes.v (Json.obj
        [(kSummary, Json.str s), (kThreatType, Json.str t),
         (kRecommendations, Json.arr (recs.map Json.str))]), rest) := by
  have hlin : renderBriefing s t recs ++ rest =
      '\x7b' :: '"' :: ("summary".data ++ '"' :: ':' :: ' ' :: '"' ::
        (s ++ '"' :: ',' :: ' ' :: '"' :: ("threat_type".data ++ '"' :: ':' :: ' ' :: '"' ::
          (t ++ '"' :: ',' :: ' ' :: '"' :: ("recommendations".data ++ '"' :: ':' :: ' ' ::
            '[' :: (renderRecs recs ++ ']' :: '\x7d' :: rest)))))) := by
    simp [renderBriefing, renderStr]
  have harr : parseCore (f + 1) PMode.val
      (' ' :: '[' :: (renderRecs recs ++ ']' :: '\x7d' :: rest)) =
      some (PRes.v (Json.arr (recs.map Json.str)), '\x7d' :: rest) := by
    rw [parseCore_val_of_arr f _ (renderRecs recs ++ ']' :: '\x7d' :: rest)
      (by rw [skipWs_cons_ws ' ' _ (by decide)]
          exact skipWs_cons_not '[' _ (by decide))]
    cases recs with
    | nil =>
      rw [show renderRecs [] ++ ']' :: '\x7d' :: rest = ']' :: '\x7d' :: rest from rfl]
      rw [skipWs_cons_not ']' _ (by decide)]
      rfl
    | cons r0 rs0 =>
      obtain ⟨tail, htail⟩ := renderRecs_head r0 rs0 (']' :: '\x7d' :: rest)
      rw [htail, skipWs_cons_not '"' _ (by decide)]
      show (match parseCore f PMode.elems ('"' :: tail) with
            | some (PRes.vs l, r) => some (PRes.v (Json.arr l), r)
            | _ => none) = _
      rw [← htail]
      rw [parseCore_elems_render (r0 :: rs0) f ('\x7d' :: rest)
        (List.cons_ne_nil r0 rs0) hr hf]
  have hm3 : parseCore (f + 2) PMode.members
      (' ' :: '"' :: ("recommendations".data ++ '"' :: ':' :: ' ' ::
        '[' :: (renderRecs recs ++ ']' :: '\x7d' :: rest))) =
      some (PRes.ms [(kRecommendations, Json.arr (recs.map Json.str))], rest) := by
    rw [parseCore_members_of (f + 1) _ kRecommendations
      (' ' :: '[' :: (renderRecs recs ++ ']' :: '\x7d' :: rest))
      (by rw [skipWs_cons_ws ' ' _ (by decide)]
          exact skipWs_cons_not '"' _ (by decide))
      (by decide)]
    rw [harr]
    show (match skipWs ('\x7d' :: rest) with
          | ',' :: r4 =>
            (match parseCore (f + 1) PMode.members r4 with
             | some (PRes.ms fs, r5) =>
               some (PRes.ms ((kRecommendations, Json.arr (recs.map Json.str)) :: fs), r5)
             | _ => none)
          | '\x7d' :: r4 =>
            some (PRes.ms [(kRecommendations, Json.arr (recs.map Json.str))], r4)
          | _ => none) = _
    rw [skipWs_cons_not '\x7d' _ (by decide)]
    rfl
  have hv2 : parseCore (f + 2) PMode.val
      (' ' :: '"' :: (t ++ '"' :: ',' :: ' ' :: '"' :: ("recommendations".data ++
        '"' :: ':' :: ' ' :: '[' :: (renderRecs recs ++ ']' :: '\x7d' :: rest)))) =
      some (PRes.v (Json.str t),
        ',' :: ' ' :: '"' :: ("recommendations".data ++
          '"' :: ':' :: ' ' :: '[' :: (renderRecs recs ++ ']' :: '\x7d' :: rest))) :=
    parseCore_val_of_string (f + 1) _ t _
      (by rw [skipWs_cons_ws ' ' _ (by decide)]
          exact skipWs_cons_not '"' _ (by decide)) ht
  have hm2 : parseCore (f + 3) PMode.members
      (' ' :: '"' :: ("threat_type".data ++ '"' :: ':' :: ' ' :: '"' ::
        (t ++ '"' :: ',' :: ' ' :: '"' :: ("recommendations".data ++
          '"' :: ':' :: ' ' :: '[' :: (renderRecs recs ++ ']' :: '\x7d' :: rest))))) =
      some (PRes.ms [(kThreatType, Json.str t),
        (kRecommendations, Json.arr (recs.map Json.str))], rest) := by
    rw [parseCore_members_of (f + 2) _ kThreatType
      (' ' :: '"' :: (t ++ '"' :: ',' :: ' ' :: '"' :: ("recommendations".data ++
        '"' :: ':' :: ' ' :: '[' :: (renderRecs recs ++ ']' :: '\x7d' :: rest))))
      (by rw [skipWs_cons_ws ' ' _ (by decide)]
          exact skipWs_cons_not '"' _ (by decide))
      (by decide)]
    rw [hv2]
    show (match skipWs (',' :: ' ' :: '"' :: ("recommendations".data ++
            '"' :: ':' :: ' ' :: '[' :: (renderRecs recs ++ ']' :: '\x7d' :: rest))) with
          | ',' :: r4 =>
            (match parseCore (f + 2) PMode.members r4 with
             | some (PRes.ms fs, r5) =>
               some (PRes.ms ((kThreatType, Json.str t) :: fs), r5)
             | _ => none)
          | '\x7d' :: r4 => some (PRes.ms [(kThreatType, Json.str t)], r4)
          | _ => none) = _
    rw [skipWs_cons_not ',' _ (by decide)]
    show (match parseCore (f + 2) PMode.members
            (' ' :: '"' :: ("recommendations".data ++
              '"' :: ':' :: ' ' :: '[' :: (renderRecs recs ++ ']' :: '\x7d' :: rest))) with
          | some (PRes.ms fs, r5) => some (PRes.ms ((kThreatType, Json.str t) :: fs), r5)
          | _ => none) = _
    rw [hm3]
  have hv1 : parseCore (f + 3) PMode.val
      (' ' :: '"' :: (s ++ '"' :: ',' :: ' ' :: '"' :: ("threat_type".data ++
        '"' :: ':' :: ' ' :: '"' :: (t ++ '"' :: ',' :: ' ' :: '"' ::
          ("recommendations".data ++ '"' :: ':' :: ' ' ::
            '[' :: (renderRecs recs ++ ']' :: '\x7d' :: rest)))))) =
      some (PRes.v (Json.str s),
        ',' :: ' ' :: '"' :: ("threat_type".data ++ '"' :: ':' :: ' ' :: '"' ::
          (t ++ '"' :: ',' :: ' ' :: '"' :: ("recommendations".data ++
            '"' :: ':' :: ' ' :: '[' :: (renderRecs recs ++ ']' :: '\x7d' :: rest))))) :=
    parseCore_val_of_string (f + 2) _ s _
      (by rw [skipWs_cons_ws ' ' _ (by decide)]
          exact skipWs_cons_not '"' _ (by decide)) hs
  have hm1 : parseCore (f + 4) PMode.members
      ('"' :: ("summary".data ++ '"' :: ':' :: ' ' :: '"' ::
        (s ++ '"' :: ',' :: ' ' :: '"' :: ("threat_type".data ++ '"' :: ':' :: ' ' :: '"' ::
          (t ++ '"' :: ',' :: ' ' :: '"' :: ("recommendations".data ++
            '"' :: ':' :: ' ' :: '[' :: (renderRecs recs ++ ']' :: '\x7d' :: rest))))))) =
      some (PRes.ms [(kSummary, Json.str s), (kThreatType, Json.str t),
        (kRecommendations, Json.arr (recs.map Json.str))], rest) := by
    rw [parseCore_members_of (f + 3)
      ('"' :: ("summary".data ++ '"' :: ':' :: ' ' :: '"' ::
        (s ++ '"' :: ',' :: ' ' :: '"' :: ("threat_type".data ++ '"' :: ':' :: ' ' :: '"' ::
          (t ++ '"' :: ',' :: ' ' :: '"' :: ("recommendations".data ++
            '"' :: ':' :: ' ' :: '[' :: (renderRecs recs ++ ']' :: '\x7d' :: rest)))))))
      kSummary
      (' ' :: '"' :: (s ++ '"' :: ',' :: ' ' :: '"' :: ("threat_type".data ++
        '"' :: ':' :: ' ' :: '"' :: (t ++ '"' :: ',' :: ' ' :: '"' ::
          ("recommendations".data ++ '"' :: ':' :: ' ' ::
            '[' :: (renderRecs recs ++ ']' :: '\x7d' :: rest))))))
      (by exact skipWs_cons_not '"' _ (by decide))
      (by decide)]
    rw [hv1]
    show (match skipWs (',' :: ' ' :: '"' :: ("threat_type".data ++
            '"' :: ':' :: ' ' :: '"' :: (t ++ '"' :: ',' :: ' ' :: '"' ::
              ("recommendations".data ++ '"' :: ':' :: ' ' ::
                '[' :: (renderRecs recs ++ ']' :: '\x7d' :: rest))))) with
          | ',' :: r4 =>
            (match parseCore (f + 3) PMode.members r4 with
             | some (PRes.ms fs, r5) => some (PRes.ms ((kSummary, Json.str s) :: fs), r5)
             | _ => none)
          | '\x7d' :: r4 => some (PRes.ms [(kSummary, Json.str s)], r4)
          | _ => none) = _
    rw [skipWs_cons_not ',' _ (by decide)]
    show (match parseCore (f + 3) PMode.members
            (' ' :: '"' :: ("threat_type".data ++ '"' :: ':' :: ' ' :: '"' ::
              (t ++ '"' :: ',' :: ' ' :: '"' :: ("recommendations".data ++
                '"' :: ':' :: ' ' :: '[' :: (renderRecs recs ++ ']' :: '\x7d' :: rest))))) with
          | some (PRes.ms fs, r5) => some (PRes.ms ((kSummary, Json.str s) :: fs), r5)
          | _ => none) = _
    rw [hm2]
  rw [parseCore_val_of_obj (f + 4) s0 _ (hws0.trans hlin)]
  rw [skipWs_cons_not '"' _ (by decide)]
  show (match parseCore (f + 4) PMode.members
          ('"' :: ("summary".data ++ '"' :: ':' :: ' ' :: '"' ::
            (s ++ '"' :: ',' :: ' ' :: '"' :: ("threat_type".data ++ '"' :: ':' :: ' ' :: '"' ::
              (t ++ '"' :: ',' :: ' ' :: '"' :: ("recommendations".data ++
                '"' :: ':' :: ' ' :: '[' :: (renderRecs recs ++ ']' :: '\x7d' :: rest))))))) with
        | some (PRes.ms fs, r) => some (PRes.v (Json.obj (mkObj fs)), r)
        | _ => none) = _
  rw [hm1]
  show some (PRes.v (Json.obj (mkObj [(kSummary, Json.str s), (kThreatType, Json.str t),
    (kRecommendations, Json.arr (recs.map Json.str))])), rest) = _
  rw [mkObj_three]

theorem renderRecs_length (recs : List (List Char)) :
    recs.length ≤ (renderRecs recs).length := by
  induction recs with
  | nil => simp [renderRecs]
  | cons r rs ih =>
    cases rs with
    | nil => simp [renderRecs, renderStr]
    | cons r2 rs2 =>
      simp only [renderRecs, renderStr, List.length_cons, List.length_append] at ih ⊢
      omega

theorem jsonLoads_briefing (s t : List Char) (recs : List (List Char))
    (hs : ∀ c ∈ s, plainChar c) (ht : ∀ c ∈ t, plainChar c)
    (hr : ∀ r ∈ recs, ∀ c ∈ r, plainChar c) :
    jsonLoads ('\n' :: (renderBriefing s t recs ++ ['\n'])) =
      some (Json.obj [(kSummary, Json.str s), (kThreatType, Json.str t),
        (kRecommendations, Json.arr (recs.map Json.str))]) := by
  have hlen : recs.length + 6 ≤ ('\n' :: (renderBriefing s t recs ++ ['\n'])).length := by
    have h1 := renderRecs_length recs
    simp only [renderBriefing, renderStr, List.length_cons, List.length_append,
      List.length_singleton] at h1 ⊢
    omega
  obtain ⟨tail, htail⟩ : ∃ tail, renderBriefing s t recs ++ ['\n'] = '\x7b' :: tail :=
    ⟨_, rfl⟩
  have hws0 : skipWs ('\n' :: (renderBriefing s t recs ++ ['\n'])) =
      renderBriefing s t recs ++ ['\n'] := by
    rw [skipWs_cons_ws '\n' _ (by decide), htail]
    exact skipWs_cons_not '\x7b' _ (by decide)
  unfold jsonLoads parseVal
  have hfuel : 2 * ('\n' :: (renderBriefing s t recs ++ ['\n'])).length + 1 =
      (2 * ('\n' :: (renderBriefing s t recs ++ ['\n'])).length + 1 - 5) + 5 := by
    omega
  rw [hfuel]
  rw [parseCore_briefing s t recs ['\n']
    (2 * ('\n' :: (renderBriefing s t recs ++ ['\n'])).length + 1 - 5)
    ('\n' :: (renderBriefing s t recs ++ ['\n'])) hs ht hr (by omega) hws0]
  rfl

theorem noBt_append {a b : List Char} (ha : ∀ c ∈ a, c.toNat ≠ 96)
    (hb : ∀ c ∈ b, c.toNat ≠ 96) : ∀ c ∈ a ++ b, c.toNat ≠ 96 :=
  fun c hc => (List.mem_append.mp hc).elim (ha c) (hb c)

theorem noBt_cons {x : Char} {b : List Char} (hx : x.toNat ≠ 96)
    (hb : ∀ c ∈ b, c.toNat ≠ 96) : ∀ c ∈ x :: b, c.toNat ≠ 96 :=
  fun c hc => (List.mem_cons.mp hc).elim (fun h => h ▸ hx) (hb c)

theorem renderRecs_noBt (recs : List (List Char))
    (hr : ∀ r ∈ recs, ∀ c ∈ r, plainChar c) :
    ∀ c ∈ renderRecs recs, c.toNat ≠ 96 := by
  induction recs with
  | nil => intro c hc; simp [renderRecs] at hc
  | cons r rs ih =>
    have hre : ∀ c ∈ r, c.toNat ≠ 96 := fun c hc => ((hr r (by simp)) c hc).2.2.1
    cases rs with
    | nil => exact noBt_cons (by decide) (noBt_append hre (by decide))
    | cons r2 rs2 =>
      rw [show renderRecs (r :: r2 :: rs2) = renderStr r ++ ',' :: renderRecs (r2 :: rs2)
        from rfl]
      exact noBt_append (noBt_cons (by decide) (noBt_append hre (by decide)))
        (noBt_cons (by decide) (ih fun q hq => hr q (List.mem_cons_of_mem r hq)))

theorem renderBriefing_noBt (s t : List Char) (recs : List (List Char))
    (hs : ∀ c ∈ s, plainChar c) (ht : ∀ c ∈ t, plainChar c)
    (hr : ∀ r ∈ recs, ∀ c ∈ r, plainChar c) :
    ∀ c ∈ renderBriefing s t recs, c.toNat ≠ 96 := by
  have hs' : ∀ c ∈ s, c.toNat ≠ 96 := fun c hc => (hs c hc).2.2.1
  have ht' : ∀ c ∈ t, c.toNat ≠ 96 := fun c hc => (ht c hc).2.2.1
  have hrecs := renderRecs_noBt recs hr
  have hstr : ∀ (u : List Char), (∀ c ∈ u, c.toNat ≠ 96) →
      ∀ c ∈ renderStr u, c.toNat ≠ 96 := by
    intro u hu
    exact noBt_cons (by decide) (noBt_append hu (by decide))
  unfold renderBriefing
  refine noBt_cons (by decide) (noBt_cons (by decide) (noBt_append (by decide) ?_))
  refine noBt_cons (by decide) (noBt_cons (by decide) (noBt_cons (by decide) ?_))
  refine noBt_append (hstr s hs') ?_
  refine noBt_cons (by decide) (noBt_cons (by decide) (noBt_cons (by decide) ?_))
  refine noBt_append (by decide) ?_
  refine noBt_cons (by decide) (noBt_cons (by decide) (noBt_cons (by decide) ?_))
  refine noBt_append (hstr t ht') ?_
  refine noBt_cons (by decide) (noBt_cons (by decide) (noBt_cons (by decide) ?_))
  refine noBt_append (by decide) ?_
  refine noBt_cons (by decide) (noBt_cons (by decide) (noBt_cons (by decide)
    (noBt_cons (by decide) ?_)))
  exact noBt_append hrecs (by decide)

/-- C9 amended: for every three-field briefing object built from plain
characters (no quote, no backslash, no control character and - as the
counterexample forces - no backtick), the stripping step of src/api.py
line 107 applied to the code-fenced reply recovers text that parses to
exactly that object. -/
theorem c9_fenced_reply_roundtrip (s t : List Char) (recs : List (List Char))
    (hs : ∀ c ∈ s, plainChar c) (ht : ∀ c ∈ t, plainChar c)
    (hr : ∀ r ∈ recs, ∀ c ∈ r, plainChar c) :
    jsonLoads (cleanResponse (fencedReply (renderBriefing s t recs))) =
      some (Json.obj [(kSummary, Json.str s), (kThreatType, Json.str t),
        (kRecommendations, Json.arr (recs.map Json.str))]) := by
  rw [cleanResponse_fenced _ (renderBriefing_noBt s t recs hs ht hr)]
  exact jsonLoads_briefing s t recs hs ht hr

/-- Witness for the amended C9 at a concrete briefing. -/
theorem c9_fenced_reply_roundtrip_witness :
    jsonLoads (cleanResponse (fencedReply
        (renderBriefing ("ssh scans".data) ("SSH Brute-Force".data)
          ["block 22".data, "rotate creds".data]))) =
      some (Json.obj [(kSummary, Json.str ("ssh scans".data)),
        (kThreatType, Json.str ("SSH Brute-Force".data)),
        (kRecommendations,
          Json.arr (["block 22".data, "rotate creds".data].map Json.str))]) :=
  c9_fenced_reply_roundtrip ("ssh scans".data) ("SSH Brute-Force".data)
    ["block 22".data, "rotate creds".data] (by decide) (by decide) (by decide)
